import Mathlib

/-!
Shallow embedding of the tabular statistical analysis engine of
`src/analysis/mod.rs` (Oxidized_Bio).

Modelling conventions:
* Rust `f64` values are idealised as real numbers (`ℝ`); `f64::sqrt` is
  `Real.sqrt`.  There is no NaN in the model: the source's explicit
  `<2 values → 0` / `variance.max(0.0)` guards are the content of the
  corresponding claims.
* A CSV cell is modelled as its raw string together with the result of
  `str::parse::<f64>` (`none` when the cell does not parse); string-to-float
  parsing itself is external library code and is treated as an oracle
  attached to the cell.
* `nalgebra`'s `try_inverse` on a real matrix succeeds exactly when the
  matrix is invertible, i.e. when its determinant is nonzero; the model
  branches on `det = 0` accordingly and uses Mathlib's matrix inverse.
* The `HashMap` over group labels has no specified iteration order; the
  model takes the iteration order as an explicit `groupOrder : List String`
  parameter (`runAnalysisWith`), and `run_analysis` instantiates it with
  first-encounter order.  Determinism of the artifacts is proved as
  invariance under permutations of `groupOrder`.
* Image rendering (`write_heatmap` / `write_boxplot`) is file I/O and is
  outside the shallow embedding; `AnalysisArtifacts` here carries the four
  result collections and the summary string.
-/

namespace OxBio

/-- A parsed CSV cell: the raw string (used for group labels) and the
optional `f64` parse result (used for numeric accumulation). -/
structure Cell where
  raw : String
  num : Option ℝ

/-- Structure `AnalysisConfig` from `src/analysis/mod.rs`. -/
structure AnalysisConfig where
  target_column : Option String
  group_column : Option String
  covariates : List String
  boxplot_column : Option String
  max_columns : ℕ
  max_groups : ℕ

/-- Structure `DescriptiveStat` from `src/models.rs` (fields used by the engine). -/
structure DescriptiveStat where
  column : String
  count : ℕ
  mean : ℝ
  std_dev : ℝ
  min : ℝ
  median : ℝ
  max : ℝ

/-- Structure `RegressionResult` from `src/models.rs`. -/
structure RegressionResult where
  target : String
  predictors : List String
  intercept : ℝ
  coefficients : List ℝ
  r2 : ℝ
  n : ℕ

/-- Structure `NoveltyScore` from `src/models.rs`. -/
structure NoveltyScore where
  column : String
  score : ℝ
  rationale : String

/-- Structure `BiomarkerCandidate` from `src/models.rs`. -/
structure BiomarkerCandidate where
  column : String
  score : ℝ
  correlation : ℝ
  direction : String
  notes : String

/-- The computed portion of `AnalysisArtifacts` (images are I/O). -/
structure AnalysisArtifacts where
  descriptive_stats : List DescriptiveStat
  regressions : List RegressionResult
  novelty_scores : List NoveltyScore
  biomarker_candidates : List BiomarkerCandidate
  summary : String

/-- Model of `headers.iter().position(|h| h == c)`: first index of `c` in the header
row. -/
def position (headers : List String) (c : String) : Option ℕ :=
  headers.findIdx? (fun h => h = c)

/-- Resolved index of the group column. -/
def groupIndex (headers : List String) (config : AnalysisConfig) : Option ℕ :=
  config.group_column.bind (position headers)

/-- Resolved index of the target column. -/
def targetIndex (headers : List String) (config : AnalysisConfig) : Option ℕ :=
  config.target_column.bind (position headers)

/-- Resolved `(index, name)` pairs for the covariates, silently skipping
names that do not resolve against the header. -/
def covariateIndices (headers : List String) (config : AnalysisConfig) :
    List (ℕ × String) :=
  config.covariates.filterMap fun c => (position headers c).map fun idx => (idx, c)

/-- Selected column positions: all columns except the group column, capped
at `max_columns`; falls back to all columns when that set is empty.  The cap
is applied before the emptiness check, exactly as in the source. -/
def selectedIndices (headers : List String) (config : AnalysisConfig) : List ℕ :=
  let s := ((List.range headers.length).filter
      (fun idx => some idx ≠ groupIndex headers config)).take config.max_columns
  if s.isEmpty then List.range headers.length else s

/-- Column name reported for index `i` (`headers.get(i)` with the
`column_{i+1}` fallback). -/
def headerName (headers : List String) (i : ℕ) : String :=
  (headers[i]?).getD ("column_" ++ toString (i + 1))

/-- Parsed numeric value of column `colIdx` in one row, when present. -/
def cellNum (row : List Cell) (colIdx : ℕ) : Option ℝ :=
  (row[colIdx]?).bind Cell.num

/-- The retained per-column value vector (`stats_values[pos]`): every
parseable cell of the column, in row order. -/
def colValues (rows : List (List Cell)) (colIdx : ℕ) : List ℝ :=
  rows.filterMap fun row => cellNum row colIdx

/-- Minimum of a retained value vector.  The source folds `f64::min` from
`+∞`; on the nonempty vectors for which the value is consumed this equals
the fold below. -/
def colMin (l : List ℝ) : ℝ :=
  match l with
  | [] => 0
  | a :: t => t.foldl min a

/-- Maximum of a retained value vector (fold of `f64::max` from `-∞`). -/
def colMax (l : List ℝ) : ℝ :=
  match l with
  | [] => 0
  | a :: t => t.foldl max a

/-- The raw group label of a row (`record.get(group_idx).to_string()`). -/
def groupLabel (gi : Option ℕ) (row : List Cell) : Option String :=
  gi.bind fun idx => (row[idx]?).map Cell.raw

/-- Per `(group label, column)` running `(sum, count)` accumulated by the
streaming pass (the `group_sums` HashMap entry contents). -/
def groupSum (gi : Option ℕ) (rows : List (List Cell)) (label : String)
    (colIdx : ℕ) : ℝ × ℕ :=
  let vals := rows.filterMap fun row =>
    if groupLabel gi row = some label then cellNum row colIdx else none
  (vals.sum, vals.length)

/-- Whether some selected column of the row parses (a `group_sums` entry is
created only from inside the per-column parse loop). -/
def rowHasParsedSelected (selected : List ℕ) (row : List Cell) : Bool :=
  selected.any fun c => (cellNum row c).isSome

/-- The group labels present in the `group_sums` map, in first-encounter
order (one canonical iteration order of the HashMap). -/
def groupKeys (gi : Option ℕ) (selected : List ℕ) (rows : List (List Cell)) :
    List String :=
  (rows.filterMap fun row =>
    if rowHasParsedSelected selected row then groupLabel gi row else none).dedup

/-- The `(x, target)` pairs collected for the univariate regression of a column
against the target.  Faithful to the source: the loop does not skip the
target column itself. -/
def univariatePairs (ti : Option ℕ) (rows : List (List Cell)) (colIdx : ℕ) :
    List (ℝ × ℝ) :=
  match ti with
  | none => []
  | some t => rows.filterMap fun row =>
      (cellNum row t).bind fun tv => (cellNum row colIdx).map fun v => (v, tv)

/-- The `(x, target)` pairs collected for biomarker ranking; this loop does skip
the target column. -/
def biomarkerPairs (ti : Option ℕ) (rows : List (List Cell)) (colIdx : ℕ) :
    List (ℝ × ℝ) :=
  match ti with
  | none => []
  | some t => rows.filterMap fun row =>
      (cellNum row t).bind fun tv =>
        if colIdx = t then none
        else (cellNum row colIdx).map fun v => (v, tv)

/-- The covariate row of one record: `some` exactly when every configured
covariate parses (row-wise completion policy). -/
def covRow (covs : List (ℕ × String)) (row : List Cell) : Option (List ℝ) :=
  covs.mapM fun p => cellNum row p.1

/-- The `(covariate row, target)` pairs kept for the multivariate regression. -/
def regressionData (ti : Option ℕ) (covs : List (ℕ × String))
    (rows : List (List Cell)) : List (List ℝ × ℝ) :=
  match ti with
  | none => []
  | some t => rows.filterMap fun row =>
      (cellNum row t).bind fun tv => (covRow covs row).map fun r => (r, tv)

/-- Ascending sort of a retained value vector (`sort_by(partial_cmp)` on
NaN-free data; Rust's sort is stable, as is insertion sort). -/
noncomputable def sortR (l : List ℝ) : List ℝ :=
  l.insertionSort (· ≤ ·)

/-- Function `std_dev` from `src/analysis/mod.rs`: 0 for fewer than two values, else
the Bessel-corrected sample standard deviation about the supplied mean. -/
noncomputable def std_dev (values : List ℝ) (mean : ℝ) : ℝ :=
  if values.length < 2 then 0
  else Real.sqrt ((values.map fun v => (v - mean) ^ 2).sum / ((values.length : ℝ) - 1))

/-- Function `build_descriptive_stats`: one stat per selected column with at least
one retained value; count/mean/std/median are computed from the sorted copy
of the retained vector, min/max come from the running extrema. -/
noncomputable def build_descriptive_stats (headers : List String)
    (selected : List ℕ) (valuesAt : ℕ → List ℝ) (minAt maxAt : ℕ → ℝ) :
    List DescriptiveStat :=
  selected.filterMap fun colIdx =>
    let col := valuesAt colIdx
    if col.isEmpty then none
    else
      let sorted := sortR col
      let count := sorted.length
      let mean := sorted.sum / (count : ℝ)
      let sd := std_dev sorted mean
      let median :=
        if count % 2 = 0 then (sorted.getD (count / 2 - 1) 0 + sorted.getD (count / 2) 0) / 2
        else sorted.getD (count / 2) 0
      some { column := headerName headers colIdx, count := count, mean := mean,
             std_dev := sd, min := minAt colIdx, median := median, max := maxAt colIdx }

/-- Mean of a target vector (`y.iter().sum() / y.len()`). -/
noncomputable def meanVec {n : ℕ} (y : Fin n → ℝ) : ℝ :=
  (∑ i, y i) / (n : ℝ)

/-- Total sum of squares about the mean of `y`. -/
noncomputable def ssTot {n : ℕ} (y : Fin n → ℝ) : ℝ :=
  ∑ i, (y i - meanVec y) ^ 2

/-- Residual sum of squares of `y` against fitted values `yhat`. -/
noncomputable def ssRes {n : ℕ} (y yhat : Fin n → ℝ) : ℝ :=
  ∑ i, (y i - yhat i) ^ 2

/-- Function `ols_fit`: normal-equation OLS.  `try_inverse` fails exactly on a
singular `XᵗX`, in which case the fit yields `none`; otherwise
`β = (XᵗX)⁻¹Xᵗy`, and `R² = 1 − SSres/SStot`, defined as 0 when
`SStot ≤ 0`.  Returns `(intercept, coefficients, R²)`. -/
noncomputable def ols_fit {n p : ℕ} (x : Matrix (Fin n) (Fin p) ℝ)
    (y : Fin n → ℝ) : Option (ℝ × List ℝ × ℝ) :=
  if (x.transpose * x).det = 0 then none
  else
    let beta := (x.transpose * x)⁻¹.mulVec (x.transpose.mulVec y)
    let r2 := if 0 < ssTot y then 1 - ssRes y (x.mulVec beta) / ssTot y else 0
    let bl := List.ofFn beta
    some (bl.headD 0, (bl.drop 1, r2))

/-- The 2-column design matrix (intercept, x) of the univariate fit. -/
def designUni (pairs : List (ℝ × ℝ)) : Matrix (Fin pairs.length) (Fin 2) ℝ :=
  Matrix.of fun i j => if j = 0 then 1 else (pairs.get i).1

/-- The target vector of the univariate fit. -/
def yUni (pairs : List (ℝ × ℝ)) : Fin pairs.length → ℝ :=
  fun i => (pairs.get i).2

/-- The multivariate design matrix: an intercept column of 1s followed by
the covariate values of each completed row. -/
def designMulti (p : ℕ) (rows : List (List ℝ)) :
    Matrix (Fin rows.length) (Fin (p + 1)) ℝ :=
  Matrix.of fun i j => if (j : ℕ) = 0 then 1 else (rows.get i).getD ((j : ℕ) - 1) 0

/-- Function `build_regressions` (multivariate mode): at most one result, present
when a target is configured, the completed rows are nonempty, and `XᵗX` is
invertible. -/
noncomputable def build_regressions (target : Option String)
    (covariates : List (ℕ × String)) (rows : List (List ℝ)) (targets : List ℝ) :
    List RegressionResult :=
  match target with
  | none => []
  | some tname =>
    if rows ≠ [] ∧ rows.length = targets.length ∧ 0 < covariates.length then
      match ols_fit (designMulti covariates.length rows) (fun i => targets.getD i 0) with
      | some (intercept, coefficients, r2) =>
        [{ target := tname, predictors := covariates.map Prod.snd,
           intercept := intercept, coefficients := coefficients, r2 := r2,
           n := rows.length }]
      | none => []
    else []

/-- Function `build_univariate_regressions`: in univariate-fallback mode, one result
per selected column with at least two collected `(x, y)` pairs whose
2-column design matrix admits an OLS fit. -/
noncomputable def build_univariate_regressions (target : Option String)
    (headers : List String) (selected : List ℕ)
    (pairsAt : ℕ → List (ℝ × ℝ)) : List RegressionResult :=
  match target with
  | none => []
  | some tname =>
    selected.filterMap fun colIdx =>
      let pairs := pairsAt colIdx
      if pairs.length < 2 then none
      else
        match ols_fit (designUni pairs) (yUni pairs) with
        | some (intercept, coefficients, r2) =>
          some { target := tname, predictors := [headerName headers colIdx],
                 intercept := intercept, coefficients := coefficients, r2 := r2,
                 n := pairs.length }
        | none => none

/-- Global mean of a column from the running sums. -/
noncomputable def noveltyMean (overallSum : ℕ → ℝ) (overallCount : ℕ → ℕ)
    (colIdx : ℕ) : ℝ :=
  overallSum colIdx / (overallCount colIdx : ℝ)

/-- Global population variance from the running sums
(`E[X²] − E[X]²`, before clamping). -/
noncomputable def noveltyVar (overallSum overallSumSq : ℕ → ℝ)
    (overallCount : ℕ → ℕ) (colIdx : ℕ) : ℝ :=
  overallSumSq colIdx / (overallCount colIdx : ℝ) -
    noveltyMean overallSum overallCount colIdx ^ 2

/-- Global standard deviation: square root of the variance clamped at 0. -/
noncomputable def noveltyStd (overallSum overallSumSq : ℕ → ℝ)
    (overallCount : ℕ → ℕ) (colIdx : ℕ) : ℝ :=
  Real.sqrt (max (noveltyVar overallSum overallSumSq overallCount colIdx) 0)

/-- Maximum absolute deviation of a group mean from the global mean, folded
over the groups in map-iteration order, starting from 0 and skipping empty
groups. -/
noncomputable def noveltyMaxDelta (mean : ℝ) (groups : List String)
    (groupSums : String → ℝ × ℕ) : ℝ :=
  groups.foldl
    (fun acc g =>
      let sc := groupSums g
      if 0 < sc.2 then max acc |sc.1 / (sc.2 : ℝ) - mean| else acc) 0

/-- Function `build_novelty_scores`: one score per selected column with at least two
aggregated values; `score = min(max_delta / (3·std), 1)`, or 0 when the
global standard deviation is 0. -/
noncomputable def build_novelty_scores (headers : List String)
    (selected : List ℕ) (overallSum overallSumSq : ℕ → ℝ)
    (overallCount : ℕ → ℕ) (groups : List String)
    (groupSums : String → ℕ → ℝ × ℕ) : List NoveltyScore :=
  selected.filterMap fun colIdx =>
    if overallCount colIdx < 2 then none
    else
      let mean := noveltyMean overallSum overallCount colIdx
      let std := noveltyStd overallSum overallSumSq overallCount colIdx
      let maxDelta := noveltyMaxDelta mean groups (fun g => groupSums g colIdx)
      let score := if 0 < std then min (maxDelta / (3 * std)) 1 else 0
      some { column := headerName headers colIdx, score := score,
             rationale := "Scaled deviation of group means from overall mean (0-1)" }

/-- Number of paired entries used by `correlation` (`min` of the lengths). -/
def corrN (x y : List ℝ) : ℕ := min x.length y.length

/-- Mean of the first `n` entries of a series. -/
noncomputable def corrMean (l : List ℝ) (n : ℕ) : ℝ := (l.take n).sum / (n : ℝ)

/-- Cross-deviation sum of `correlation`. -/
noncomputable def corrNum (x y : List ℝ) : ℝ :=
  let n := corrN x y
  ∑ i ∈ Finset.range n,
    (x.getD i 0 - corrMean x n) * (y.getD i 0 - corrMean y n)

/-- Squared-deviation sum of the first series. -/
noncomputable def corrDX (x y : List ℝ) : ℝ :=
  let n := corrN x y
  ∑ i ∈ Finset.range n, (x.getD i 0 - corrMean x n) ^ 2

/-- Squared-deviation sum of the second series. -/
noncomputable def corrDY (x y : List ℝ) : ℝ :=
  let n := corrN x y
  ∑ i ∈ Finset.range n, (y.getD i 0 - corrMean y n) ^ 2

/-- Pearson correlation from `src/analysis/mod.rs`: 0 when fewer than two
paired entries or when either squared-deviation sum vanishes, else
`Σ dx·dy / (√Σdx² · √Σdy²)`. -/
noncomputable def correlation (x y : List ℝ) : ℝ :=
  if corrN x y < 2 then 0
  else if corrDX x y = 0 ∨ corrDY x y = 0 then 0
  else corrNum x y / (Real.sqrt (corrDX x y) * Real.sqrt (corrDY x y))

/-- Descending-by-score comparator of the biomarker sort
(`b.score.partial_cmp(&a.score)` on NaN-free scores). -/
def biomarkerLE (a b : BiomarkerCandidate) : Prop := b.score ≤ a.score

noncomputable instance : DecidableRel biomarkerLE :=
  fun a b => Real.decidableLE b.score a.score

/-- Function `build_biomarker_candidates`: requires a configured target; one
candidate per selected column with at least three collected pairs;
stable-sorted descending by score and truncated to 50. -/
noncomputable def build_biomarker_candidates (target : Option String)
    (headers : List String) (selected : List ℕ)
    (pairsAt : ℕ → List (ℝ × ℝ)) : List BiomarkerCandidate :=
  match target with
  | none => []
  | some _ =>
    let candidates := selected.filterMap fun colIdx =>
      let pairs := pairsAt colIdx
      if pairs.length < 3 then none
      else
        let corr := correlation (pairs.map Prod.fst) (pairs.map Prod.snd)
        some { column := headerName headers colIdx, score := |corr|,
               correlation := corr,
               direction := if 0 ≤ corr then "positive" else "negative",
               notes := "Pearson correlation with target (age). Higher absolute correlation suggests stronger biomarker signal." }
    (candidates.insertionSort biomarkerLE).take 50

/-- The whole engine run, with the group-map iteration order made explicit
(`groupOrder` stands for the unspecified HashMap iteration order). -/
noncomputable def runAnalysisWith (headers : List String)
    (rows : List (List Cell)) (config : AnalysisConfig)
    (groupOrder : List String) : AnalysisArtifacts :=
  let gi := groupIndex headers config
  let ti := targetIndex headers config
  let covs := covariateIndices headers config
  let sel := selectedIndices headers config
  let stats := build_descriptive_stats headers sel (fun c => colValues rows c)
    (fun c => colMin (colValues rows c)) (fun c => colMax (colValues rows c))
  let regs :=
    if covs.isEmpty then
      build_univariate_regressions config.target_column headers sel
        (fun c => univariatePairs ti rows c)
    else
      build_regressions config.target_column covs
        ((regressionData ti covs rows).map Prod.fst)
        ((regressionData ti covs rows).map Prod.snd)
  let novs := build_novelty_scores headers sel
    (fun c => (colValues rows c).sum)
    (fun c => ((colValues rows c).map fun v => v * v).sum)
    (fun c => (colValues rows c).length)
    groupOrder (fun g c => groupSum gi rows g c)
  let bios := build_biomarker_candidates config.target_column headers sel
    (fun c => biomarkerPairs ti rows c)
  { descriptive_stats := stats, regressions := regs, novelty_scores := novs,
    biomarker_candidates := bios,
    summary := "Computed descriptive statistics for " ++ toString stats.length ++
      " columns. Generated " ++ toString regs.length ++
      " regression model(s). Novelty scores computed for " ++ toString novs.length ++
      " columns. Biomarker candidates ranked for " ++ toString bios.length ++ " columns." }

/-- Function `run_analysis` with the canonical first-encounter iteration order of the
group map. -/
noncomputable def run_analysis (headers : List String)
    (rows : List (List Cell)) (config : AnalysisConfig) : AnalysisArtifacts :=
  runAnalysisWith headers rows config
    (groupKeys (groupIndex headers config) (selectedIndices headers config) rows)

/-! ### Helper lemmas -/

lemma findIdx?_lt {α : Type} (p : α → Bool) :
    ∀ (l : List α) (s j : ℕ), List.findIdx? p l s = some j → j < s + l.length := by
  intro l
  induction l with
  | nil => intro s j h; simp [List.findIdx?] at h
  | cons a t ih =>
    intro s j h
    rw [List.findIdx?] at h
    by_cases hp : p a
    · rw [if_pos hp] at h
      cases h
      simp
    · rw [if_neg hp] at h
      have := ih (s + 1) j h
      simp only [List.length_cons]
      omega

lemma position_lt_length {headers : List String} {c : String} {i : ℕ}
    (h : position headers c = some i) : i < headers.length := by
  have := findIdx?_lt (fun h => decide (h = c)) headers 0 i h
  omega

lemma std_dev_nonneg (vals : List ℝ) (mean : ℝ) : 0 ≤ std_dev vals mean := by
  unfold std_dev
  split
  · exact le_refl 0
  · exact Real.sqrt_nonneg _

lemma build_regressions_length_le_one (t : Option String)
    (covs : List (ℕ × String)) (rows : List (List ℝ)) (targets : List ℝ) :
    (build_regressions t covs rows targets).length ≤ 1 := by
  unfold build_regressions
  cases t with
  | none => simp
  | some tname =>
    simp only
    split
    · split <;> simp
    · simp

/-! ### C10 -/

/-- C10: when `max_columns = 0` and the header list is nonempty, the cap is
applied before the emptiness check, so the fallback selects all header
columns (group column included) and the selected set is nonempty; in
general, whenever excluding the group column and capping yields an empty
list, the selection falls back to all columns. -/
theorem C10_selected_fallback (headers : List String) (config : AnalysisConfig) :
    (config.max_columns = 0 → headers ≠ [] →
      selectedIndices headers config = List.range headers.length ∧
      selectedIndices headers config ≠ [] ∧
      ∀ gi, groupIndex headers config = some gi →
        gi ∈ selectedIndices headers config) ∧
    (((List.range headers.length).filter
        fun idx => some idx ≠ groupIndex headers config).take config.max_columns = [] →
      selectedIndices headers config = List.range headers.length) := by
  have hfallback : ∀ _ : ((List.range headers.length).filter
      fun idx => some idx ≠ groupIndex headers config).take config.max_columns = [],
      selectedIndices headers config = List.range headers.length := by
    intro hemp
    simp only [selectedIndices]
    rw [hemp]
    simp
  constructor
  · intro h0 hne
    have hfall := hfallback (by rw [h0, List.take_zero])
    refine ⟨hfall, ?_, ?_⟩
    · rw [hfall]
      simp only [ne_eq, List.range_eq_nil]
      intro hlen
      exact hne (List.length_eq_zero.mp hlen)
    · intro gi hgi
      rw [hfall, List.mem_range]
      obtain ⟨c, _, hpos⟩ := Option.bind_eq_some.mp hgi
      exact position_lt_length hpos
  · exact hfallback

/-- Witness for C10 at `headers = ["a","b"]`, group column `"a"`,
`max_columns = 0`: all columns (the group column included) are selected. -/
theorem C10_selected_fallback_witness :
    selectedIndices ["a", "b"]
        ⟨none, some "a", [], none, 0, 20⟩ = List.range 2 ∧
      selectedIndices ["a", "b"] ⟨none, some "a", [], none, 0, 20⟩ ≠ [] ∧
      ∀ gi, groupIndex ["a", "b"] ⟨none, some "a", [], none, 0, 20⟩ = some gi →
        gi ∈ selectedIndices ["a", "b"] ⟨none, some "a", [], none, 0, 20⟩ :=
  (C10_selected_fallback ["a", "b"] ⟨none, some "a", [], none, 0, 20⟩).1 rfl
    (by simp)

/-! ### C8 -/

/-- C8: the reported sample standard deviation is exactly 0 for fewer than
two values, equals the Bessel-corrected `sqrt(Σ(x-mean)²/(n-1))` for at
least two values and is nonnegative, and every emitted descriptive stat has
a nonnegative standard deviation which is 0 when its count is below 2.  (In
this real-valued model there is no NaN; the `n < 2` guard of the source is
exactly what rules the NaN branch out.) -/
theorem C8_std_dev_total :
    (∀ (vals : List ℝ) (mean : ℝ), vals.length < 2 → std_dev vals mean = 0) ∧
    (∀ (vals : List ℝ) (mean : ℝ), 2 ≤ vals.length →
      std_dev vals mean =
        Real.sqrt ((vals.map fun v => (v - mean) ^ 2).sum / ((vals.length : ℝ) - 1)) ∧
      0 ≤ std_dev vals mean) ∧
    ∀ (headers : List String) (selected : List ℕ) (valuesAt : ℕ → List ℝ)
      (minAt maxAt : ℕ → ℝ),
      ∀ d ∈ build_descriptive_stats headers selected valuesAt minAt maxAt,
        0 ≤ d.std_dev ∧ (d.count < 2 → d.std_dev = 0) := by
  refine ⟨?_, ?_, ?_⟩
  · intro vals mean h
    unfold std_dev
    rw [if_pos h]
  · intro vals mean h
    have hnot : ¬ vals.length < 2 := not_lt.mpr h
    refine ⟨?_, std_dev_nonneg _ _⟩
    unfold std_dev
    rw [if_neg hnot]
  · intro headers selected valuesAt minAt maxAt d hd
    simp only [build_descriptive_stats] at hd
    obtain ⟨c, _, hfc⟩ := List.mem_filterMap.mp hd
    by_cases hemp : (valuesAt c).isEmpty
    · rw [if_pos hemp] at hfc
      cases hfc
    · rw [if_neg hemp] at hfc
      obtain rfl := Option.some.inj hfc
      refine ⟨std_dev_nonneg _ _, ?_⟩
      intro hcount
      unfold std_dev
      rw [if_pos hcount]

/-- Witness for C8: concrete instances of all three parts. -/
theorem C8_std_dev_total_witness :
    std_dev [(5 : ℝ)] 0 = 0 ∧
      (0 : ℝ) ≤ std_dev [(0 : ℝ), 2] 1 ∧
      0 ≤ (DescriptiveStat.mk "a" 1 3 0 3 3 3).std_dev :=
  ⟨C8_std_dev_total.1 [(5 : ℝ)] 0 (by simp),
    (C8_std_dev_total.2.1 [(0 : ℝ), 2] 1 (by simp)).2,
    (C8_std_dev_total.2.2 ["a"] [0] (fun _ => [3]) (fun _ => 3) (fun _ => 3)
        (DescriptiveStat.mk "a" 1 3 0 3 3 3) (by
          simp only [build_descriptive_stats, List.filterMap_cons, List.filterMap_nil]
          norm_num [sortR, List.insertionSort, std_dev, headerName])).1⟩

/-! ### C7 -/

/-- C7: OLS fitting is a total function (no error, no panic in the model):
a singular `XᵗX` yields `none`; a successful fit has a nonsingular `XᵗX`
and `R² = 1 − SSres/SStot`, which is 0 whenever `SStot` is 0; and the
multivariate builder emits no result at all on a singular design. -/
theorem C7_ols_silent_skip {n p : ℕ} (x : Matrix (Fin n) (Fin p) ℝ) (y : Fin n → ℝ) :
    ((x.transpose * x).det = 0 → ols_fit x y = none) ∧
    (∀ i c r, ols_fit x y = some (i, (c, r)) →
      (x.transpose * x).det ≠ 0 ∧
      r = (if 0 < ssTot y then
            1 - ssRes y (x.mulVec ((x.transpose * x)⁻¹.mulVec
              (x.transpose.mulVec y))) / ssTot y
          else 0) ∧
      (ssTot y = 0 → r = 0)) ∧
    (∀ (tname : String) (covs : List (ℕ × String)) (rows : List (List ℝ))
        (targets : List ℝ),
      ((designMulti covs.length rows).transpose * designMulti covs.length rows).det = 0 →
      build_regressions (some tname) covs rows targets = []) := by
  refine ⟨?_, ?_, ?_⟩
  · intro h
    unfold ols_fit
    rw [if_pos h]
  · intro i c r h
    unfold ols_fit at h
    by_cases hd : (x.transpose * x).det = 0
    · rw [if_pos hd] at h
      cases h
    · rw [if_neg hd] at h
      obtain ⟨rfl, rfl, rfl⟩ : _ ∧ _ ∧ _ := by
        have := Option.some.inj h
        exact ⟨congrArg Prod.fst this.symm,
          congrArg (fun q => q.2.1) this.symm, congrArg (fun q => q.2.2) this.symm⟩
      refine ⟨hd, rfl, ?_⟩
      intro h0
      rw [h0]
      simp
  · intro tname covs rows targets hdet
    have hnone : ols_fit (designMulti covs.length rows)
        (fun i => targets.getD i 0) = none := by
      unfold ols_fit
      rw [if_pos hdet]
    unfold build_regressions
    simp only
    split
    · rw [hnone]
    · rfl

/-- Witness for C7: an all-zero single-column design is silently skipped; a
successful fit on the identity design has nonsingular `XᵗX`; a singular
multivariate design emits no regression. -/
theorem C7_ols_silent_skip_witness :
    ols_fit (Matrix.of ![![(0 : ℝ)], ![0]]) (fun _ => 1) = none ∧
      ((1 : Matrix (Fin 1) (Fin 1) ℝ).transpose * 1).det ≠ 0 ∧
      build_regressions (some "t") [(0, "c")] [[(0 : ℝ)], [0]] [1, 2] = [] := by
  have hdet0 : ((Matrix.of ![![(0 : ℝ)], ![0]]).transpose *
      Matrix.of ![![(0 : ℝ)], ![0]]).det = 0 := by
    rw [Matrix.det_fin_one, Matrix.mul_apply, Fin.sum_univ_two]
    simp
  have hfit : ols_fit (1 : Matrix (Fin 1) (Fin 1) ℝ) (fun _ => (5 : ℝ)) =
      some (5, ([], 0)) := by
    unfold ols_fit
    rw [Matrix.transpose_one, Matrix.mul_one]
    rw [if_neg (by simp : ¬ (1 : Matrix (Fin 1) (Fin 1) ℝ).det = 0)]
    rw [inv_one, Matrix.one_mulVec, Matrix.one_mulVec]
    have hss : ssTot (fun _ : Fin 1 => (5 : ℝ)) = 0 := by
      unfold ssTot meanVec
      simp
    rw [hss]
    simp [List.ofFn_succ]
  have hdetm : ((designMulti (List.length [(0, "c")]) [[(0 : ℝ)], [0]]).transpose *
      designMulti (List.length [(0, "c")]) [[(0 : ℝ)], [0]]).det = 0 := by
    have hD : designMulti (List.length [(0, "c")]) [[(0 : ℝ)], [0]] =
        Matrix.of ![![1, 0], ![1, 0]] := by
      funext i j
      fin_cases i <;> fin_cases j <;> simp [designMulti]
    rw [hD, Matrix.det_fin_two, Matrix.mul_apply, Matrix.mul_apply,
      Matrix.mul_apply, Matrix.mul_apply]
    simp [Fin.sum_univ_two]
  exact ⟨(C7_ols_silent_skip (Matrix.of ![![(0 : ℝ)], ![0]]) (fun _ => 1)).1 hdet0,
    ((C7_ols_silent_skip (1 : Matrix (Fin 1) (Fin 1) ℝ) (fun _ => (5 : ℝ))).2.1
      5 [] 0 hfit).1,
    (C7_ols_silent_skip (1 : Matrix (Fin 1) (Fin 1) ℝ) (fun _ => (5 : ℝ))).2.2
      "t" [(0, "c")] [[(0 : ℝ)], [0]] [1, 2] hdetm⟩

/-! ### C3 (amended) -/

/-- C3 (amended): the mode is selected by the emptiness of the *resolved*
covariate index list, not of the configured name list: with no resolved
covariates the engine emits the per-column univariate regressions, and with
at least one resolved covariate it emits the single multivariate model
(at most one result). -/
theorem C3_amended_mode_selection (headers : List String)
    (rows : List (List Cell)) (config : AnalysisConfig)
    (groupOrder : List String) :
    (covariateIndices headers config = [] →
      (runAnalysisWith headers rows config groupOrder).regressions =
        build_univariate_regressions config.target_column headers
          (selectedIndices headers config)
          (fun c => univariatePairs (targetIndex headers config) rows c)) ∧
    (covariateIndices headers config ≠ [] →
      (runAnalysisWith headers rows config groupOrder).regressions =
        build_regressions config.target_column (covariateIndices headers config)
          ((regressionData (targetIndex headers config)
            (covariateIndices headers config) rows).map Prod.fst)
          ((regressionData (targetIndex headers config)
            (covariateIndices headers config) rows).map Prod.snd) ∧
      (runAnalysisWith headers rows config groupOrder).regressions.length ≤ 1) := by
  constructor
  · intro h
    simp only [runAnalysisWith]
    rw [if_pos (by rw [List.isEmpty_iff]; exact h)]
  · intro h
    have hne : ¬ (covariateIndices headers config).isEmpty = true := by
      rw [List.isEmpty_iff]
      exact h
    refine ⟨?_, ?_⟩
    · simp only [runAnalysisWith]
      rw [if_neg hne]
    · simp only [runAnalysisWith]
      rw [if_neg hne]
      exact build_regressions_length_le_one _ _ _ _

/-- Witness for C3 (amended): a config with one resolving covariate takes
the multivariate path and yields at most one regression. -/
theorem C3_amended_mode_selection_witness :
    (runAnalysisWith ["t", "c"] []
        ⟨some "t", none, ["c"], none, 50, 20⟩ []).regressions =
      build_regressions (some "t") [(1, "c")]
        ((regressionData (some 0) [(1, "c")] []).map Prod.fst)
        ((regressionData (some 0) [(1, "c")] []).map Prod.snd) ∧
      (runAnalysisWith ["t", "c"] []
        ⟨some "t", none, ["c"], none, 50, 20⟩ []).regressions.length ≤ 1 :=
  (C3_amended_mode_selection ["t", "c"] []
    ⟨some "t", none, ["c"], none, 50, 20⟩ []).2 (by decide)

/-! ### C5 -/

lemma le_foldl_of_le_step {α : Type} {f : ℝ → α → ℝ} (hf : ∀ a g, a ≤ f a g) :
    ∀ (l : List α) (acc : ℝ), acc ≤ l.foldl f acc := by
  intro l
  induction l with
  | nil => intro acc; exact le_refl acc
  | cons h t ih => intro acc; exact le_trans (hf acc h) (ih (f acc h))

lemma noveltyMaxDelta_nonneg (mean : ℝ) (groups : List String)
    (groupSums : String → ℝ × ℕ) :
    0 ≤ noveltyMaxDelta mean groups groupSums := by
  unfold noveltyMaxDelta
  refine le_foldl_of_le_step ?_ groups 0
  intro a g
  dsimp only
  split
  · exact le_max_left _ _
  · exact le_refl a

/-- C5: every emitted novelty score lies in `[0, 1]`; it is emitted only
for selected columns with at least two aggregated values, and equals
`min(max_deviation / (3·global_std), 1)` when the clamped global standard
deviation is positive and 0 when it vanishes. -/
theorem C5_novelty_bounds (headers : List String) (selected : List ℕ)
    (overallSum overallSumSq : ℕ → ℝ) (overallCount : ℕ → ℕ)
    (groups : List String) (groupSums : String → ℕ → ℝ × ℕ) :
    ∀ s ∈ build_novelty_scores headers selected overallSum overallSumSq
        overallCount groups groupSums,
      (0 ≤ s.score ∧ s.score ≤ 1) ∧
      ∃ c ∈ selected, 2 ≤ overallCount c ∧
        s.score = (if 0 < noveltyStd overallSum overallSumSq overallCount c then
            min (noveltyMaxDelta (noveltyMean overallSum overallCount c) groups
              (fun g => groupSums g c) /
                (3 * noveltyStd overallSum overallSumSq overallCount c)) 1
          else 0) := by
  intro s hs
  simp only [build_novelty_scores] at hs
  obtain ⟨c, hc, hfc⟩ := List.mem_filterMap.mp hs
  by_cases hcnt : overallCount c < 2
  · rw [if_pos hcnt] at hfc
    cases hfc
  · rw [if_neg hcnt] at hfc
    obtain rfl := Option.some.inj hfc
    refine ⟨⟨?_, ?_⟩, c, hc, not_lt.mp hcnt, rfl⟩
    · dsimp only
      split
      · next hstd =>
        refine le_min ?_ zero_le_one
        exact div_nonneg (noveltyMaxDelta_nonneg _ _ _)
          (by positivity)
      · exact le_refl 0
    · dsimp only
      split
      · exact min_le_right _ _
      · exact zero_le_one

/-- Witness for C5: a constant column (zero variance) gets novelty score 0,
which lies in `[0, 1]`. -/
theorem C5_novelty_bounds_witness :
    (0 : ℝ) ≤ (NoveltyScore.mk "a" 0
        "Scaled deviation of group means from overall mean (0-1)").score ∧
      (NoveltyScore.mk "a" 0
        "Scaled deviation of group means from overall mean (0-1)").score ≤ 1 :=
  (C5_novelty_bounds ["a"] [0] (fun _ => 2) (fun _ => 2) (fun _ => 2)
    ["g"] (fun _ _ => (2, 2))
    (NoveltyScore.mk "a" 0 "Scaled deviation of group means from overall mean (0-1)")
    (by
      simp only [build_novelty_scores, List.filterMap_cons, List.filterMap_nil]
      norm_num [noveltyStd, noveltyVar, noveltyMean, headerName])).1

/-! ### C6 -/

lemma corrN_comm (x y : List ℝ) : corrN x y = corrN y x := by
  unfold corrN
  exact min_comm _ _

lemma corrNum_comm (x y : List ℝ) : corrNum x y = corrNum y x := by
  unfold corrNum
  rw [corrN_comm x y]
  exact Finset.sum_congr rfl fun i _ => mul_comm _ _

lemma corrDX_swap (x y : List ℝ) : corrDX x y = corrDY y x := by
  unfold corrDX corrDY
  rw [corrN_comm x y]

lemma corrDY_swap (x y : List ℝ) : corrDY x y = corrDX y x := by
  unfold corrDX corrDY
  rw [corrN_comm x y]

lemma corrDX_nonneg (x y : List ℝ) : 0 ≤ corrDX x y := by
  unfold corrDX
  exact Finset.sum_nonneg fun i _ => sq_nonneg _

lemma correlation_comm (x y : List ℝ) : correlation x y = correlation y x := by
  unfold correlation
  rw [corrN_comm x y, corrDX_swap x y, corrDY_swap x y, corrNum_comm x y]
  by_cases h2 : corrN y x < 2
  · rw [if_pos h2, if_pos h2]
  · rw [if_neg h2, if_neg h2]
    by_cases hz : corrDX y x = 0 ∨ corrDY y x = 0
    · rw [if_pos hz.symm, if_pos hz]
    · rw [if_neg (fun h => hz h.symm), if_neg hz, mul_comm]

lemma correlation_self_one (x : List ℝ) (hlen : 2 ≤ x.length)
    (hne : ∃ a ∈ x, ∃ b ∈ x, a ≠ b) : correlation x x = 1 := by
  have hn : corrN x x = x.length := by
    unfold corrN
    exact min_self _
  have hD0 : 0 ≤ corrDX x x := corrDX_nonneg x x
  have hDne : corrDX x x ≠ 0 := by
    intro hD
    have hall : ∀ i ∈ Finset.range (corrN x x),
        (x.getD i 0 - corrMean x (corrN x x)) ^ 2 = 0 := by
      rw [← Finset.sum_eq_zero_iff_of_nonneg fun i _ => sq_nonneg _]
      exact hD
    have hconst : ∀ a ∈ x, a = corrMean x (corrN x x) := by
      intro a ha
      obtain ⟨i, hi, hgi⟩ := List.mem_iff_getElem.mp ha
      have hmem : i ∈ Finset.range (corrN x x) := by
        rw [Finset.mem_range, hn]
        exact hi
      have := hall i hmem
      have hzero := pow_eq_zero_iff (n := 2) (by norm_num) |>.mp this
      have hgd : x.getD i 0 = a := by
        rw [List.getD_eq_getElem?_getD, List.getElem?_eq_getElem hi, hgi]
        rfl
      rw [hgd] at hzero
      linarith [sub_eq_zero.mp hzero]
    obtain ⟨a, ha, b, hb, hab⟩ := hne
    exact hab ((hconst a ha).trans (hconst b hb).symm)
  have hNum : corrNum x x = corrDX x x := by
    unfold corrNum corrDX
    exact Finset.sum_congr rfl fun i _ => (pow_two _).symm
  have hYX : corrDY x x = corrDX x x := rfl
  unfold correlation
  rw [if_neg (by rw [hn]; exact not_lt.mpr hlen)]
  rw [if_neg (by rw [hYX, or_self]; exact hDne)]
  rw [hNum, hYX, Real.mul_self_sqrt hD0]
  exact div_self hDne

lemma correlation_zero_of_zero_var (x y : List ℝ)
    (hz : corrDX x y = 0 ∨ corrDY x y = 0) : correlation x y = 0 := by
  unfold correlation
  by_cases h2 : corrN x y < 2
  · rw [if_pos h2]
  · rw [if_neg h2, if_pos hz]

/-- C6: Pearson correlation is symmetric; `corr(x, x) = 1` for every
non-constant series of length at least 2; and the correlation is 0 whenever
either series has zero variance (vanishing squared-deviation sum). -/
theorem C6_correlation_algebra :
    (∀ x y : List ℝ, correlation x y = correlation y x) ∧
    (∀ x : List ℝ, 2 ≤ x.length → (∃ a ∈ x, ∃ b ∈ x, a ≠ b) →
      correlation x x = 1) ∧
    (∀ x y : List ℝ, corrDX x y = 0 ∨ corrDY x y = 0 → correlation x y = 0) :=
  ⟨correlation_comm, correlation_self_one, correlation_zero_of_zero_var⟩

/-- Witness for C6: symmetry, self-correlation of a non-constant series,
and vanishing on a constant series, at concrete inputs. -/
theorem C6_correlation_algebra_witness :
    correlation [(0 : ℝ), 1] [(0 : ℝ), 2] = correlation [(0 : ℝ), 2] [(0 : ℝ), 1] ∧
      correlation [(0 : ℝ), 1] [(0 : ℝ), 1] = 1 ∧
      correlation [(1 : ℝ), 1] [(0 : ℝ), 2] = 0 :=
  ⟨C6_correlation_algebra.1 [(0 : ℝ), 1] [(0 : ℝ), 2],
    C6_correlation_algebra.2.1 [(0 : ℝ), 1] (by simp)
      ⟨0, by simp, 1, by simp, by norm_num⟩,
    C6_correlation_algebra.2.2 [(1 : ℝ), 1] [(0 : ℝ), 2]
      (Or.inl (by
        norm_num [corrDX, corrN, corrMean, Finset.sum_range_succ]))⟩

/-! ### C4 -/

instance : IsTotal BiomarkerCandidate biomarkerLE :=
  ⟨fun a b => le_total b.score a.score⟩

instance : IsTrans BiomarkerCandidate biomarkerLE :=
  ⟨fun _ _ _ hab hbc => le_trans hbc hab⟩

lemma biomarkerPairs_self (t : ℕ) (rows : List (List Cell)) :
    biomarkerPairs (some t) rows t = [] := by
  unfold biomarkerPairs
  rw [List.filterMap_eq_nil_iff]
  intro row _
  cases cellNum row t with
  | none => rfl
  | some tv => simp

lemma build_biomarker_spec (target : Option String) (headers : List String)
    (selected : List ℕ) (pairsAt : ℕ → List (ℝ × ℝ)) :
    (build_biomarker_candidates target headers selected pairsAt).Sorted biomarkerLE ∧
    (build_biomarker_candidates target headers selected pairsAt).length ≤ 50 ∧
    ∀ cand ∈ build_biomarker_candidates target headers selected pairsAt,
      ∃ c ∈ selected, 3 ≤ (pairsAt c).length ∧
        cand.correlation = correlation ((pairsAt c).map Prod.fst)
          ((pairsAt c).map Prod.snd) ∧
        cand.score = |cand.correlation| ∧
        cand.direction =
          (if 0 ≤ cand.correlation then "positive" else "negative") := by
  cases target with
  | none =>
    refine ⟨List.sorted_nil, by simp [build_biomarker_candidates], ?_⟩
    intro cand hc
    simp [build_biomarker_candidates] at hc
  | some tname =>
    simp only [build_biomarker_candidates]
    refine ⟨?_, ?_, ?_⟩
    · exact List.Pairwise.sublist (List.take_sublist 50 _)
        (List.sorted_insertionSort biomarkerLE _)
    · rw [List.length_take]
      exact min_le_left _ _
    · intro cand hc
      have hc2 : cand ∈ List.insertionSort biomarkerLE _ :=
        (List.take_sublist 50 _).mem hc
      have hc3 := (List.perm_insertionSort biomarkerLE _).mem_iff.mp hc2
      obtain ⟨c, hcs, hfc⟩ := List.mem_filterMap.mp hc3
      by_cases hlen : (pairsAt c).length < 3
      · rw [if_pos hlen] at hfc
        cases hfc
      · rw [if_neg hlen] at hfc
        obtain rfl := Option.some.inj hfc
        exact ⟨c, hcs, not_lt.mp hlen, rfl, rfl, rfl⟩

/-- C4: the emitted biomarker-candidate list is sorted non-increasing by
score, has length at most 50, and contains an entry only for selected
non-target columns with at least 3 paired observations; each entry's score
is the absolute correlation and its direction is "positive" exactly when
the correlation is nonnegative. -/
theorem C4_biomarker_invariants (headers : List String)
    (rows : List (List Cell)) (config : AnalysisConfig)
    (groupOrder : List String) :
    (runAnalysisWith headers rows config groupOrder).biomarker_candidates.Sorted
        biomarkerLE ∧
    (runAnalysisWith headers rows config groupOrder).biomarker_candidates.length
        ≤ 50 ∧
    ∀ cand ∈ (runAnalysisWith headers rows config groupOrder).biomarker_candidates,
      ∃ c ∈ selectedIndices headers config,
        targetIndex headers config ≠ some c ∧
        3 ≤ (biomarkerPairs (targetIndex headers config) rows c).length ∧
        cand.correlation = correlation
          ((biomarkerPairs (targetIndex headers config) rows c).map Prod.fst)
          ((biomarkerPairs (targetIndex headers config) rows c).map Prod.snd) ∧
        cand.score = |cand.correlation| ∧
        cand.direction =
          (if 0 ≤ cand.correlation then "positive" else "negative") := by
  have hb : (runAnalysisWith headers rows config groupOrder).biomarker_candidates =
      build_biomarker_candidates config.target_column headers
        (selectedIndices headers config)
        (fun c => biomarkerPairs (targetIndex headers config) rows c) := rfl
  rw [hb]
  obtain ⟨h1, h2, h3⟩ := build_biomarker_spec config.target_column headers
    (selectedIndices headers config)
    (fun c => biomarkerPairs (targetIndex headers config) rows c)
  refine ⟨h1, h2, ?_⟩
  intro cand hc
  obtain ⟨c, hcs, hlen, hcorr, hscore, hdir⟩ := h3 cand hc
  refine ⟨c, hcs, ?_, hlen, hcorr, hscore, hdir⟩
  intro ht
  rw [ht, biomarkerPairs_self c rows] at hlen
  simp at hlen

/-- Concrete dataset for the C4 witness: columns `m` (1,2,3) and target
`t` (1,2,3). -/
def w4Headers : List String := ["m", "t"]

def w4Rows : List (List Cell) :=
  [[Cell.mk "1" (some 1), Cell.mk "1" (some 1)],
   [Cell.mk "2" (some 2), Cell.mk "2" (some 2)],
   [Cell.mk "3" (some 3), Cell.mk "3" (some 3)]]

def w4Config : AnalysisConfig := ⟨some "t", none, [], none, 50, 20⟩

def w4Cand : BiomarkerCandidate :=
  ⟨"m", 1, 1, "positive",
    "Pearson correlation with target (age). Higher absolute correlation suggests stronger biomarker signal."⟩

/-- Witness for C4 at a 2-column, 3-row dataset with a perfectly linear
marker: the single candidate has correlation 1, direction "positive", and
comes from the non-target column. -/
theorem C4_biomarker_invariants_witness :
    ∃ c ∈ selectedIndices w4Headers w4Config,
      targetIndex w4Headers w4Config ≠ some c ∧
      3 ≤ (biomarkerPairs (targetIndex w4Headers w4Config) w4Rows c).length ∧
      w4Cand.correlation = correlation
        ((biomarkerPairs (targetIndex w4Headers w4Config) w4Rows c).map Prod.fst)
        ((biomarkerPairs (targetIndex w4Headers w4Config) w4Rows c).map Prod.snd) ∧
      w4Cand.score = |w4Cand.correlation| ∧
      w4Cand.direction =
        (if 0 ≤ w4Cand.correlation then "positive" else "negative") := by
  have hcorr : correlation [(1 : ℝ), 2, 3] [(1 : ℝ), 2, 3] = 1 :=
    correlation_self_one [(1 : ℝ), 2, 3] (by simp)
      ⟨1, by simp, 2, by simp, by norm_num⟩
  refine (C4_biomarker_invariants w4Headers w4Rows w4Config []).2.2 w4Cand ?_
  have hrun : (runAnalysisWith w4Headers w4Rows w4Config []).biomarker_candidates =
      build_biomarker_candidates (some "t") w4Headers [0, 1]
        (fun c => biomarkerPairs (some 1) w4Rows c) := rfl
  rw [hrun]
  have hpairs : biomarkerPairs (some 1) w4Rows 0 =
      [((1 : ℝ), (1 : ℝ)), (2, 2), (3, 3)] := rfl
  have hpairsT : biomarkerPairs (some 1) w4Rows 1 = [] := biomarkerPairs_self 1 w4Rows
  simp only [build_biomarker_candidates, List.filterMap_cons, List.filterMap_nil,
    hpairs, hpairsT]
  norm_num [headerName, w4Headers, w4Cand, hcorr, List.insertionSort,
    List.orderedInsert]

/-! ### C9 -/

lemma foldl_perm_of_step_comm {α β : Type} {f : β → α → β}
    (hcomm : ∀ acc a b, f (f acc a) b = f (f acc b) a) {l1 l2 : List α}
    (h : l1.Perm l2) : ∀ acc, l1.foldl f acc = l2.foldl f acc := by
  induction h with
  | nil => intro acc; rfl
  | cons x _ ih =>
    intro acc
    simp only [List.foldl_cons]
    exact ih (f acc x)
  | swap x y l =>
    intro acc
    simp only [List.foldl_cons]
    rw [hcomm]
  | trans _ _ ih1 ih2 =>
    intro acc
    exact (ih1 acc).trans (ih2 acc)

lemma noveltyMaxDelta_perm (mean : ℝ) (groupSums : String → ℝ × ℕ)
    {g g' : List String} (h : g.Perm g') :
    noveltyMaxDelta mean g groupSums = noveltyMaxDelta mean g' groupSums := by
  unfold noveltyMaxDelta
  refine foldl_perm_of_step_comm ?_ h 0
  intro acc a b
  dsimp only
  by_cases h1 : 0 < (groupSums a).2 <;> by_cases h2 : 0 < (groupSums b).2 <;>
    simp only [h1, h2, if_pos, if_neg, if_true, if_false]
  rw [max_assoc, max_assoc,
    max_comm |(groupSums a).1 / ((groupSums a).2 : ℝ) - mean|
      |(groupSums b).1 / ((groupSums b).2 : ℝ) - mean|]

lemma build_novelty_scores_perm (headers : List String) (selected : List ℕ)
    (overallSum overallSumSq : ℕ → ℝ) (overallCount : ℕ → ℕ)
    {g g' : List String} (h : g.Perm g')
    (groupSums : String → ℕ → ℝ × ℕ) :
    build_novelty_scores headers selected overallSum overallSumSq overallCount
        g groupSums =
      build_novelty_scores headers selected overallSum overallSumSq overallCount
        g' groupSums := by
  unfold build_novelty_scores
  refine List.filterMap_congr ?_
  intro c _
  by_cases hcnt : overallCount c < 2
  · rw [if_pos hcnt, if_pos hcnt]
  · rw [if_neg hcnt, if_neg hcnt]
    dsimp only
    rw [noveltyMaxDelta_perm (noveltyMean overallSum overallCount c)
      (fun gg => groupSums gg c) h]

/-- C9: the analysis is deterministic — the artifacts do not depend on the
iteration order of the group hash map (the only internally unordered
state), so identical dataset + config always produce identical
`AnalysisArtifacts`. -/
theorem C9_determinism (headers : List String) (rows : List (List Cell))
    (config : AnalysisConfig) {g g' : List String} (h : g.Perm g') :
    runAnalysisWith headers rows config g = runAnalysisWith headers rows config g' := by
  simp only [runAnalysisWith]
  rw [build_novelty_scores_perm headers (selectedIndices headers config)
    (fun c => (colValues rows c).sum)
    (fun c => ((colValues rows c).map fun v => v * v).sum)
    (fun c => (colValues rows c).length) h
    (fun gg c => groupSum (groupIndex headers config) rows gg c)]

/-- Witness for C9: two hash-map iteration orders of the same two groups
give identical artifacts. -/
theorem C9_determinism_witness :
    runAnalysisWith ["a"] [] ⟨none, some "a", [], none, 50, 20⟩ ["A", "B"] =
      runAnalysisWith ["a"] [] ⟨none, some "a", [], none, 50, 20⟩ ["B", "A"] :=
  C9_determinism ["a"] [] ⟨none, some "a", [], none, 50, 20⟩
    (List.Perm.swap "B" "A" [])

/-! ### C2 -/

lemma ols_fit_det_ne_zero {n p : ℕ} {x : Matrix (Fin n) (Fin p) ℝ}
    {y : Fin n → ℝ} {v : ℝ × List ℝ × ℝ} (h : ols_fit x y = some v) :
    (x.transpose * x).det ≠ 0 := by
  intro hd
  unfold ols_fit at h
  rw [if_pos hd] at h
  cases h

/-- C2 (amended): in univariate-fallback mode the engine emits one
`RegressionResult` per selected column — the target column itself
included — having at least 2 paired observations and a nonsingular
2-column normal matrix; the source loop does not exclude the target, so a
regression of the target on itself is emitted whenever the target column is
selected and qualifies. -/
theorem C2_amended_univariate_emission (target : String) (headers : List String)
    (selected : List ℕ) (pairsAt : ℕ → List (ℝ × ℝ)) :
    (∀ r ∈ build_univariate_regressions (some target) headers selected pairsAt,
      ∃ c ∈ selected, 2 ≤ (pairsAt c).length ∧
        ((designUni (pairsAt c)).transpose * designUni (pairsAt c)).det ≠ 0 ∧
        r.predictors = [headerName headers c] ∧ r.n = (pairsAt c).length ∧
        r.target = target) ∧
    (∀ c ∈ selected, 2 ≤ (pairsAt c).length →
      ((designUni (pairsAt c)).transpose * designUni (pairsAt c)).det ≠ 0 →
      ∃ r ∈ build_univariate_regressions (some target) headers selected pairsAt,
        r.predictors = [headerName headers c]) := by
  constructor
  · intro r hr
    simp only [build_univariate_regressions] at hr
    obtain ⟨c, hcs, hfc⟩ := List.mem_filterMap.mp hr
    by_cases hlen : (pairsAt c).length < 2
    · rw [if_pos hlen] at hfc
      cases hfc
    · rw [if_neg hlen] at hfc
      cases hfit : ols_fit (designUni (pairsAt c)) (yUni (pairsAt c)) with
      | none =>
        rw [hfit] at hfc
        cases hfc
      | some v =>
        obtain ⟨i, cs, r2⟩ := v
        rw [hfit] at hfc
        obtain rfl := Option.some.inj hfc
        exact ⟨c, hcs, not_lt.mp hlen, ols_fit_det_ne_zero hfit, rfl, rfl, rfl⟩
  · intro c hcs hlen hdet
    have hne : ols_fit (designUni (pairsAt c)) (yUni (pairsAt c)) ≠ none := by
      simp only [ols_fit]
      rw [if_neg hdet]
      simp
    obtain ⟨v, hv⟩ := Option.ne_none_iff_exists'.mp hne
    obtain ⟨i, cs, r2⟩ := v
    refine ⟨⟨target, [headerName headers c], i, cs, r2, (pairsAt c).length⟩, ?_, rfl⟩
    simp only [build_univariate_regressions]
    refine List.mem_filterMap.mpr ⟨c, hcs, ?_⟩
    rw [if_neg (not_lt.mpr hlen), hv]

/-- Tiny single-column dataset: the sole column `t` is also the target. -/
def w2Headers : List String := ["t"]

def w2Rows : List (List Cell) := [[Cell.mk "1" (some 1)], [Cell.mk "2" (some 2)]]

/-- Config for the C2 counterexample: target `t`, no covariates. -/
def w2Config : AnalysisConfig := ⟨some "t", none, [], none, 50, 20⟩

/-- Config for the C3 counterexample: covariates configured but none
resolve against the header. -/
def w3Config : AnalysisConfig := ⟨some "t", none, ["zz"], none, 50, 20⟩

/-- Evaluation scheme for `ols_fit` given an explicit normal matrix `A`, a
right inverse `B` of it, the solved coefficient vector, and the value of
`R²`. -/
lemma ols_fit_eval {n p : ℕ} (x : Matrix (Fin n) (Fin p) ℝ) (y : Fin n → ℝ)
    (A B : Matrix (Fin p) (Fin p) ℝ) (beta : Fin p → ℝ) (r2 : ℝ)
    (hA : x.transpose * x = A) (hdet : A.det ≠ 0) (hB : A * B = 1)
    (hbeta : B.mulVec (x.transpose.mulVec y) = beta)
    (hr2 : (if 0 < ssTot y then 1 - ssRes y (x.mulVec beta) / ssTot y else 0) = r2) :
    ols_fit x y = some ((List.ofFn beta).headD 0, ((List.ofFn beta).drop 1, r2)) := by
  simp only [ols_fit]
  rw [hA, if_neg hdet, Matrix.inv_eq_right_inv hB, hbeta, hr2]

lemma tiny_ols_fit :
    ols_fit (designUni [((1 : ℝ), 1), (2, 2)]) (yUni [((1 : ℝ), 1), (2, 2)]) =
      some (0, ([1], 1)) := by
  have hm : meanVec (yUni [((1 : ℝ), 1), (2, 2)]) = 3 / 2 := by
    unfold meanVec
    rw [show (∑ i, yUni [((1 : ℝ), 1), (2, 2)] i) =
      ∑ i : Fin 2, yUni [((1 : ℝ), 1), (2, 2)] i from rfl]
    rw [Fin.sum_univ_two]
    norm_num [yUni]
  have hss : ssTot (yUni [((1 : ℝ), 1), (2, 2)]) = 1 / 2 := by
    unfold ssTot
    rw [show (∑ i, (yUni [((1 : ℝ), 1), (2, 2)] i -
          meanVec (yUni [((1 : ℝ), 1), (2, 2)])) ^ 2) =
      ∑ i : Fin 2, (yUni [((1 : ℝ), 1), (2, 2)] i -
          meanVec (yUni [((1 : ℝ), 1), (2, 2)])) ^ 2 from rfl]
    rw [Fin.sum_univ_two, hm]
    norm_num [yUni]
  have hyhat : (designUni [((1 : ℝ), 1), (2, 2)]).mulVec ![0, 1] =
      yUni [((1 : ℝ), 1), (2, 2)] := by
    funext i
    fin_cases i <;>
      simp [designUni, yUni, Matrix.mulVec, Matrix.dotProduct, Fin.sum_univ_two]
  have hres : ssRes (yUni [((1 : ℝ), 1), (2, 2)]) (yUni [((1 : ℝ), 1), (2, 2)]) = 0 := by
    unfold ssRes
    simp
  have h := ols_fit_eval (designUni [((1 : ℝ), 1), (2, 2)])
    (yUni [((1 : ℝ), 1), (2, 2)]) !![2, 3; 3, 5] !![5, -3; -3, 2] ![0, 1] 1
    (by
      ext i j
      fin_cases i <;> fin_cases j <;>
        simp [designUni, Matrix.mul_apply, Fin.sum_univ_two] <;> norm_num)
    (by norm_num [Matrix.det_fin_two])
    (by
      rw [Matrix.mul_fin_two, Matrix.one_fin_two]
      norm_num)
    (by
      funext i
      fin_cases i <;>
        simp [designUni, yUni, Matrix.mulVec, Matrix.dotProduct, Fin.sum_univ_two] <;>
        norm_num)
    (by rw [hyhat, hres, hss, if_pos (by norm_num : (0 : ℝ) < 1 / 2)]; norm_num)
  rw [h]
  norm_num [List.ofFn_succ]

lemma tiny_univariate_eval :
    build_univariate_regressions (some "t") w2Headers [0]
      (fun c => univariatePairs (some 0) w2Rows c) =
      [⟨"t", ["t"], 0, [1], 1, 2⟩] := by
  simp only [build_univariate_regressions, List.filterMap_cons, List.filterMap_nil]
  rw [if_neg (by
    rw [show (univariatePairs (some 0) w2Rows 0).length = 2 from rfl]
    norm_num)]
  rw [show ols_fit (designUni (univariatePairs (some 0) w2Rows 0))
      (yUni (univariatePairs (some 0) w2Rows 0)) = some (0, ([1], 1))
    from tiny_ols_fit]
  rfl

/-- C2 counterexample: with the single column `t` as both target and
selected column and no covariates, the engine emits a `RegressionResult`
whose sole predictor is the target column itself, contradicting the claim
that such a result is never emitted. -/
theorem C2_counterexample_target_regressed_on_itself :
    w2Config.covariates = [] ∧ w2Config.target_column = some "t" ∧
    (run_analysis w2Headers w2Rows w2Config).regressions =
      [⟨"t", ["t"], 0, [1], 1, 2⟩] := by
  refine ⟨rfl, rfl, ?_⟩
  have hreg : (run_analysis w2Headers w2Rows w2Config).regressions =
      build_univariate_regressions (some "t") w2Headers [0]
        (fun c => univariatePairs (some 0) w2Rows c) := rfl
  rw [hreg, tiny_univariate_eval]

/-- Witness for C2 (amended): the tiny instance emits the regression of the
target on itself. -/
theorem C2_amended_univariate_emission_witness :
    ∃ r ∈ build_univariate_regressions (some "t") w2Headers [0]
        (fun c => univariatePairs (some 0) w2Rows c),
      r.predictors = [headerName w2Headers 0] := by
  refine (C2_amended_univariate_emission "t" w2Headers [0]
    (fun c => univariatePairs (some 0) w2Rows c)).2 0 (by simp) ?_ ?_
  · rw [show univariatePairs (some 0) w2Rows 0 = [((1 : ℝ), 1), (2, 2)] from rfl]
    norm_num
  · rw [show univariatePairs (some 0) w2Rows 0 = [((1 : ℝ), 1), (2, 2)] from rfl]
    exact ols_fit_det_ne_zero tiny_ols_fit

/-- C3 counterexample: a config whose covariate list is nonempty but
resolves to nothing (`["zz"]` against header `["t"]`) takes the univariate
path and emits a per-column univariate regression — the predictor `t` is
not among the configured covariates — contradicting the claim that a
non-empty covariates list always selects the multivariate path. -/
theorem C3_counterexample_unresolved_covariates :
    w3Config.covariates = ["zz"] ∧ w3Config.covariates ≠ [] ∧
    (run_analysis w2Headers w2Rows w3Config).regressions =
      [⟨"t", ["t"], 0, [1], 1, 2⟩] ∧
    "t" ∉ w3Config.covariates := by
  refine ⟨rfl, by simp [w3Config], ?_, by simp [w3Config]⟩
  have hreg : (run_analysis w2Headers w2Rows w3Config).regressions =
      build_univariate_regressions (some "t") w2Headers [0]
        (fun c => univariatePairs (some 0) w2Rows c) := rfl
  rw [hreg, tiny_univariate_eval]

/-! ### C1 -/

/-- Scenario A header row. -/
def scenarioHeaders : List String := ["marker_1", "age", "cell_type"]

/-- Scenario A rows: marker_1 = (1,2,3,4), age = (10,20,30,40),
cell_type = (A,A,B,B). -/
def scenarioRows : List (List Cell) :=
  [[Cell.mk "1" (some 1), Cell.mk "10" (some 10), Cell.mk "A" none],
   [Cell.mk "2" (some 2), Cell.mk "20" (some 20), Cell.mk "A" none],
   [Cell.mk "3" (some 3), Cell.mk "30" (some 30), Cell.mk "B" none],
   [Cell.mk "4" (some 4), Cell.mk "40" (some 40), Cell.mk "B" none]]

/-- Scenario A config: target `age`, group `cell_type`, no covariates. -/
def scenarioConfig : AnalysisConfig :=
  ⟨some "age", some "cell_type", [], none, 50, 20⟩

lemma scenario_ols_fit :
    ols_fit (designUni [((1 : ℝ), 10), (2, 20), (3, 30), (4, 40)])
      (yUni [((1 : ℝ), 10), (2, 20), (3, 30), (4, 40)]) = some (0, ([10], 1)) := by
  have hv3 : ((3 : Fin 4) : ℕ) = 3 := rfl
  have hm : meanVec (yUni [((1 : ℝ), 10), (2, 20), (3, 30), (4, 40)]) = 25 := by
    unfold meanVec
    rw [show (∑ i, yUni [((1 : ℝ), 10), (2, 20), (3, 30), (4, 40)] i) =
      ∑ i : Fin 4, yUni [((1 : ℝ), 10), (2, 20), (3, 30), (4, 40)] i from rfl]
    rw [Fin.sum_univ_four]
    norm_num [yUni, hv3]
  have hss : ssTot (yUni [((1 : ℝ), 10), (2, 20), (3, 30), (4, 40)]) = 500 := by
    unfold ssTot
    rw [show (∑ i, (yUni [((1 : ℝ), 10), (2, 20), (3, 30), (4, 40)] i -
          meanVec (yUni [((1 : ℝ), 10), (2, 20), (3, 30), (4, 40)])) ^ 2) =
      ∑ i : Fin 4, (yUni [((1 : ℝ), 10), (2, 20), (3, 30), (4, 40)] i -
          meanVec (yUni [((1 : ℝ), 10), (2, 20), (3, 30), (4, 40)])) ^ 2 from rfl]
    rw [Fin.sum_univ_four, hm]
    norm_num [yUni, hv3]
  have hyhat : (designUni [((1 : ℝ), 10), (2, 20), (3, 30), (4, 40)]).mulVec
      ![0, 10] = yUni [((1 : ℝ), 10), (2, 20), (3, 30), (4, 40)] := by
    funext i
    fin_cases i <;>
      simp [designUni, yUni, Matrix.mulVec, Matrix.dotProduct, Fin.sum_univ_two,
        hv3] <;>
      norm_num
  have hres : ssRes (yUni [((1 : ℝ), 10), (2, 20), (3, 30), (4, 40)])
      (yUni [((1 : ℝ), 10), (2, 20), (3, 30), (4, 40)]) = 0 := by
    unfold ssRes
    simp
  have h := ols_fit_eval (designUni [((1 : ℝ), 10), (2, 20), (3, 30), (4, 40)])
    (yUni [((1 : ℝ), 10), (2, 20), (3, 30), (4, 40)])
    !![4, 10; 10, 30] !![3 / 2, -1 / 2; -1 / 2, 1 / 5] ![0, 10] 1
    (by
      ext i j
      fin_cases i <;> fin_cases j <;>
        simp [designUni, Matrix.mul_apply, Fin.sum_univ_four, hv3] <;> norm_num)
    (by norm_num [Matrix.det_fin_two])
    (by
      rw [Matrix.mul_fin_two, Matrix.one_fin_two]
      norm_num)
    (by
      funext i
      fin_cases i <;>
        simp [designUni, yUni, Matrix.mulVec, Matrix.dotProduct, Fin.sum_univ_two,
          Fin.sum_univ_four, hv3] <;>
        norm_num)
    (by rw [hyhat, hres, hss, if_pos (by norm_num : (0 : ℝ) < 500)]; norm_num)
  rw [h]
  norm_num [List.ofFn_succ]

/-- C1: on Scenario A the engine emits the univariate regression of `age`
on `marker_1` with intercept 0, coefficient 10 and R² = 1 (the ≈ of the
claim is exact in the real-valued model), and a descriptive stat for
`marker_1` with count 4, mean 5/2, median 5/2, min 1, max 4. -/
theorem C1_scenarioA :
    (∃ r ∈ (run_analysis scenarioHeaders scenarioRows scenarioConfig).regressions,
      r.target = "age" ∧ r.predictors = ["marker_1"] ∧ r.intercept = 0 ∧
      r.coefficients = [10] ∧ r.r2 = 1 ∧ r.n = 4) ∧
    (∃ d ∈ (run_analysis scenarioHeaders scenarioRows scenarioConfig).descriptive_stats,
      d.column = "marker_1" ∧ d.count = 4 ∧ d.mean = 5 / 2 ∧ d.median = 5 / 2 ∧
      d.min = 1 ∧ d.max = 4) := by
  have hcol : colValues scenarioRows 0 = [(1 : ℝ), 2, 3, 4] := rfl
  have hsort : sortR [(1 : ℝ), 2, 3, 4] = [(1 : ℝ), 2, 3, 4] := by
    norm_num [sortR, List.insertionSort, List.orderedInsert]
  constructor
  · have hreg : (run_analysis scenarioHeaders scenarioRows scenarioConfig).regressions =
        build_univariate_regressions (some "age") scenarioHeaders [0, 1]
          (fun c => univariatePairs (some 1) scenarioRows c) := rfl
    rw [hreg]
    refine ⟨⟨"age", ["marker_1"], 0, [10], 1, 4⟩, ?_, rfl, rfl, rfl, rfl, rfl, rfl⟩
    simp only [build_univariate_regressions]
    refine List.mem_filterMap.mpr ⟨0, by simp, ?_⟩
    rw [if_neg (by
      rw [show (univariatePairs (some 1) scenarioRows 0).length = 4 from rfl]
      norm_num)]
    rw [show ols_fit (designUni (univariatePairs (some 1) scenarioRows 0))
        (yUni (univariatePairs (some 1) scenarioRows 0)) = some (0, ([10], 1))
      from scenario_ols_fit]
    rfl
  · have hstats :
        (run_analysis scenarioHeaders scenarioRows scenarioConfig).descriptive_stats =
        build_descriptive_stats scenarioHeaders [0, 1]
          (fun c => colValues scenarioRows c)
          (fun c => colMin (colValues scenarioRows c))
          (fun c => colMax (colValues scenarioRows c)) := rfl
    rw [hstats]
    simp only [build_descriptive_stats]
    refine ⟨_, List.mem_filterMap.mpr ⟨0, by simp, rfl⟩, rfl, ?_, ?_, ?_, ?_, ?_⟩
    · show (sortR (colValues scenarioRows 0)).length = 4
      rw [hcol, hsort]
      rfl
    · show (sortR (colValues scenarioRows 0)).sum /
        ((sortR (colValues scenarioRows 0)).length : ℝ) = 5 / 2
      rw [hcol, hsort]
      norm_num
    · show (if (sortR (colValues scenarioRows 0)).length % 2 = 0 then
          ((sortR (colValues scenarioRows 0)).getD
              ((sortR (colValues scenarioRows 0)).length / 2 - 1) 0 +
            (sortR (colValues scenarioRows 0)).getD
              ((sortR (colValues scenarioRows 0)).length / 2) 0) / 2
        else (sortR (colValues scenarioRows 0)).getD
          ((sortR (colValues scenarioRows 0)).length / 2) 0) = 5 / 2
      rw [hcol, hsort]
      norm_num
    · show colMin (colValues scenarioRows 0) = 1
      rw [hcol]
      norm_num [colMin, List.foldl, min_def]
    · show colMax (colValues scenarioRows 0) = 4
      rw [hcol]
      norm_num [colMax, List.foldl, max_def]

end OxBio
